import Mathlib

/-!
Shallow embedding of the Todo-agents orchestrator (`src/server.js`) and the
todo-storage tool provider (`src/servers/todo-storage.js`), together with
theorems checking the natural-language specification against this embedding.

Conventions of the embedding:
* JavaScript strings are `String`; a possibly-`undefined` value is `Option _`.
* A thrown JS exception is `Except.error` carrying the error message; the
  value of a successful `await` is `Except.ok`.
* Impure inputs (the engine's responses, the MCP clients' answers, clock
  values) are passed in explicitly: the engine is a *script* — the list of
  outcomes of the successive `anthropic.messages.create` calls — and each
  provider client is a function from (server, tool name, arguments) to an
  outcome.
* The SSE events written by `send(...)` in `POST /api/chat` are collected in
  order into a `List Event`.  The spec's event names map to the wire names
  used by the code as follows: `tool_call` = toolCall, `tool_result` =
  toolResult, `final_response` = the code's `response` event, `turn_complete`
  = the code's `done` event, `error` = error.
-/

/-- Which MCP server owns a tool: `server.js` stores the strings
`'storage'` and `'ai'` in `toolServerMap`. -/
inductive ServerId where
  | storage
  | ai
deriving DecidableEq, Repr

/-- One segment of an MCP tool result's structured `content` array.  The code
(`callMCPTool`) only ever reads the optional `text` property of the first
segment, so that is all we model; a segment whose `text` is `none` models a
non-text segment (or one lacking the property). -/
structure ContentSeg where
  text : Option String
deriving DecidableEq, Repr

/-- A content block of an engine (Claude) response.  `server.js` inspects
`block.type` (`'tool_use'` vs `'text'` vs anything else), `block.id`,
`block.name`, `block.input` and `block.text`; the structured `input` payload
is kept opaque as a `String`. -/
inductive Block where
  | text (s : String)
  | toolUse (id name input : String)
  | other
deriving DecidableEq, Repr

/-- One engine response, as consumed by `server.js`: `response.stop_reason`
(a string, compared against `'tool_use'`) and `response.content`. -/
structure EngineResponse where
  stop_reason : String
  content : List Block
deriving DecidableEq, Repr

/-- One entry of the tool-results message pushed after a round:
`{ type: 'tool_result', tool_use_id: block.id, content: result }`. -/
structure ToolCallResult where
  tool_use_id : String
  content : String
deriving DecidableEq, Repr

/-- A conversation message as pushed onto `messages` in `POST /api/chat`:
the caller's plain user text, an assistant turn carrying the engine's raw
content, or the user-role message bundling a round's tool results. -/
inductive Message where
  | user (text : String)
  | assistant (content : List Block)
  | toolResults (results : List ToolCallResult)
deriving DecidableEq, Repr

/-- An SSE progress event written by `send(...)` in `POST /api/chat`.
Constructor names follow the spec's vocabulary; the code's wire `type`
strings are `tool_call`, `tool_result`, `response`, `done`, `error`. -/
inductive Event where
  | toolCall (name input : String)
  | toolResult (name result : String)
  | finalResponse (text : String)
  | turnComplete (messages : List Message)
  | error (message : String)
deriving DecidableEq, Repr

/-- The `toolServerMap` of `server.js`: a JS `Map` from tool name to owning
server, modelled as an insertion-ordered association list. -/
abbrev Registry := List (String × ServerId)

/-- The behaviour of the two connected MCP clients:
`client.callTool({name, arguments})` either throws (error message) or
returns a result whose `content` is a list of segments. -/
abbrev Invoke := ServerId → String → String → Except String (List ContentSeg)

/-- JS `Map.prototype.set`: overwrite in place if the key exists (keeping
insertion order), otherwise append. -/
def mapSet (m : Registry) (k : String) (v : ServerId) : Registry :=
  if m.any (fun p => p.1 = k) then
    m.map (fun p => if p.1 = k then (k, v) else p)
  else
    m ++ [(k, v)]

/-- JS `Map.prototype.get` (`none` = `undefined`). -/
def mapGet (m : Registry) (k : String) : Option ServerId :=
  (m.find? (fun p => p.1 = k)).map (fun p => p.2)

/-- The registration loops of `initMCP` in `server.js`: every tool of the
storage server is entered into `toolServerMap` mapped to `'storage'`, then
every tool of the ai server mapped to `'ai'`.  Only the tool names matter
for routing, so the providers are given as their name lists. -/
def initRegistry (storageNames aiNames : List String) : Registry :=
  aiNames.foldl (fun m n => mapSet m n ServerId.ai)
    (storageNames.foldl (fun m n => mapSet m n ServerId.storage) [])

/-- The `allTools` accumulator of `initMCP`, restricted to the tool names:
both loops `push` one entry per discovered tool, storage first then ai. -/
def allToolNames (storageNames aiNames : List String) : List String :=
  aiNames.foldl (fun acc n => acc ++ [n])
    (storageNames.foldl (fun acc n => acc ++ [n]) [])

/-- `result.content[0]?.text ?? ''` — the reduction of a provider result to
the text carried by its first segment, empty when there is no first segment
or it has no text. -/
def extractFirstText (content : List ContentSeg) : String :=
  ((content.head?).bind ContentSeg.text).getD ""

/-- `callMCPTool(name, args)` from `server.js`: look the name up in
`toolServerMap`; throw `No MCP server registered for tool: <name>` when
absent; otherwise call the owning client and reduce its result with
`extractFirstText`.  A client-side throw propagates. -/
def callMCPTool (reg : Registry) (inv : Invoke) (name input : String) :
    Except String String :=
  match mapGet reg name with
  | none => Except.error ("No MCP server registered for tool: " ++ name)
  | some srv =>
    match inv srv name input with
    | Except.error e => Except.error e
    | Except.ok result => Except.ok (extractFirstText result)

/-- The tool-dispatch `for` loop of one `tool_use` round: for every
`tool_use` block in order, emit a `tool_call` event, run `callMCPTool`, and
on success emit a `tool_result` event and record the result entry; other
block types are skipped.  A throw from `callMCPTool` aborts the iteration:
the events emitted so far stand and the exception propagates. -/
def dispatchBlocks (reg : Registry) (inv : Invoke) :
    List Block → List Event × Except String (List ToolCallResult)
  | [] => ([], Except.ok [])
  | Block.toolUse id name input :: rest =>
    match callMCPTool reg inv name input with
    | Except.error e => ([Event.toolCall name input], Except.error e)
    | Except.ok r =>
      let (evs, res) := dispatchBlocks reg inv rest
      (Event.toolCall name input :: Event.toolResult name r :: evs,
       match res with
       | Except.error e => Except.error e
       | Except.ok trs => Except.ok (⟨id, r⟩ :: trs))
  | Block.text _ :: rest => dispatchBlocks reg inv rest
  | Block.other :: rest => dispatchBlocks reg inv rest

/-- `response.content.find(b => b.type === 'text')?.text ?? ''`. -/
def firstText : List Block → String
  | [] => ""
  | Block.text s :: _ => s
  | Block.toolUse _ _ _ :: rest => firstText rest
  | Block.other :: rest => firstText rest

/-- The agentic `while (true)` loop of `POST /api/chat`, driven by the
engine script (one script entry per `anthropic.messages.create` call).
Per iteration: a script `Except.error` models the engine call throwing, and
the surrounding `try/catch` turns any throw — from the engine call or from
`callMCPTool` — into a single `error` event ending the stream.  On
`stop_reason === 'tool_use'` the assistant turn is appended, the round is
dispatched, and the bundled tool results are appended before re-querying;
otherwise the final `response` (= `final_response`) and `done`
(= `turn_complete`) events are emitted and the loop breaks.  An exhausted
script while the loop still runs yields no further events (the model's
truncation of an unfinished run). -/
def runLoopAux (reg : Registry) (inv : Invoke) :
    List (Except String EngineResponse) → List Message → List Event
  | [], _ => []
  | Except.error e :: _, _ => [Event.error e]
  | Except.ok resp :: restScript, messages =>
    if resp.stop_reason = "tool_use" then
      match dispatchBlocks reg inv resp.content with
      | (evs, Except.error e) => evs ++ [Event.error e]
      | (evs, Except.ok trs) =>
        evs ++ runLoopAux reg inv restScript
          (messages ++ [Message.assistant resp.content]
                    ++ [Message.toolResults trs])
    else
      [Event.finalResponse (firstText resp.content),
       Event.turnComplete (messages ++ [Message.assistant resp.content])]

/-- One whole turn of `POST /api/chat`: the conversation is seeded with
`[...history, { role: 'user', content: message }]` and the loop runs. -/
def runTurn (reg : Registry) (inv : Invoke)
    (script : List (Except String EngineResponse))
    (history : List Message) (message : String) : List Event :=
  runLoopAux reg inv script (history ++ [Message.user message])

/-- Number of `tool_call` events in a stream (one per dispatched call). -/
def countToolCalls : List Event → Nat
  | [] => 0
  | Event.toolCall _ _ :: rest => countToolCalls rest + 1
  | _ :: rest => countToolCalls rest

/-- Number of `turn_complete` events in a stream. -/
def countTurnComplete : List Event → Nat
  | [] => 0
  | Event.turnComplete _ :: rest => countTurnComplete rest + 1
  | _ :: rest => countTurnComplete rest

/-- Number of top-level `error` events in a stream. -/
def countErrors : List Event → Nat
  | [] => 0
  | Event.error _ :: rest => countErrors rest + 1
  | _ :: rest => countErrors rest

/-- Whether a stream contains any `tool_result` event. -/
def hasToolResult (evs : List Event) : Bool :=
  evs.any (fun e => match e with
    | Event.toolResult _ _ => true
    | _ => false)

/-- The conversation carried by the first `turn_complete` event of a
stream, when one exists. -/
def turnCompleteConv : List Event → Option (List Message)
  | [] => none
  | Event.turnComplete ms :: _ => some ms
  | _ :: rest => turnCompleteConv rest

-- Concrete instances used to exercise the loop on explicit runs.

/-- A one-tool registry: tool `t` owned by the storage server. -/
def reg0 : Registry := [("t", ServerId.storage)]

/-- A provider behaviour that answers every call with one text segment
`r`. -/
def inv0 : Invoke := fun _ _ _ => Except.ok [⟨some "r"⟩]

/-- An engine response requesting the single tool call `t(x)`. -/
def toolStep : Except String EngineResponse :=
  Except.ok ⟨"tool_use", [Block.toolUse "i" "t" "x"]⟩

/-- An engine response giving the plain final answer `Added!`. -/
def finalStep : Except String EngineResponse :=
  Except.ok ⟨"end_turn", [Block.text "Added!"]⟩

/-- The events of `n` successful one-call rounds of `toolStep` under
`reg0`/`inv0`. -/
def nRoundEvents : Nat → List Event
  | 0 => []
  | n + 1 => Event.toolCall "t" "x" :: Event.toolResult "t" "r" :: nRoundEvents n

/-- The conversation built up by `n` successful `toolStep` rounds starting
from `msgs`. -/
def nRoundMsgs : Nat → List Message → List Message
  | 0, msgs => msgs
  | n + 1, msgs =>
    nRoundMsgs n (msgs ++ [Message.assistant [Block.toolUse "i" "t" "x"]]
                       ++ [Message.toolResults [⟨"i", "r"⟩]])

/-!
## The todo-storage provider (`src/servers/todo-storage.js`)

Each tool handler reads `todos.json`, possibly mutates the array, and writes
it back.  A handler is modelled as a pure function from its arguments, the
impure clock values it samples, and the stored list, to a pair
`(write?, text)`: `write? = some l` means `writeTodos(l)` was called with the
new array `l`, `write? = none` means the handler returned without writing;
`text` is the single text segment of the returned MCP result.
-/

/-- One stored todo record, with the fields the handlers read or write.
`none` models JSON `null` / an absent property. -/
structure Todo where
  id : String
  title : String
  description : String
  priority : String
  due_date : Option String
  completed : Bool
  created_at : String
  completed_at : Option String := none
  updated_at : Option String := none
deriving DecidableEq, Repr

/-- Arguments of `list_todos` (`none` = property not supplied). -/
structure ListArgs where
  status : Option String
  priority : Option String
deriving DecidableEq, Repr

/-- Arguments of `update_todo` (`none` = property not supplied, i.e. the JS
`!== undefined` guards skip the field). -/
structure UpdateArgs where
  id : String
  title : Option String := none
  description : Option String := none
  priority : Option String := none
  due_date : Option String := none
deriving DecidableEq, Repr

/-- Replace the first element satisfying `p` by its image under `f`
(JS `findIndex` followed by in-place mutation of `todos[idx]`). -/
def updateFirst (p : Todo → Bool) (f : Todo → Todo) : List Todo → List Todo
  | [] => []
  | t :: ts => if p t then f t :: ts else t :: updateFirst p f ts

/-- Remove the first element satisfying `p` (JS `findIndex` followed by
`splice(idx, 1)`). -/
def removeFirst (p : Todo → Bool) : List Todo → List Todo
  | [] => []
  | t :: ts => if p t then ts else t :: removeFirst p ts

/-- One line of the `list_todos` output:
`[id] ✓/○ title | priority priority` then ` | due <date>` when `due_date`
is truthy and ` | <description>` when `description` is truthy (JS
truthiness: `null` and the empty string are falsy). -/
def renderTodoLine (t : Todo) : String :=
  "[" ++ t.id ++ "] " ++ (if t.completed then "✓" else "○") ++ " "
    ++ t.title ++ " | " ++ t.priority ++ " priority"
    ++ (match t.due_date with
        | some d => if d = "" then "" else " | due " ++ d
        | none => "")
    ++ (if t.description = "" then "" else " | " ++ t.description)

/-- The `list_todos` branch of the `CallToolRequestSchema` handler: filter
by `status === 'pending'` / `status === 'completed'`, then by priority when
`args.priority` is truthy, and render; never writes. -/
def list_todos (args : ListArgs) (todos : List Todo) :
    Option (List Todo) × String :=
  let t1 := if args.status = some "pending"
            then todos.filter (fun t => !t.completed) else todos
  let t2 := if args.status = some "completed"
            then t1.filter (fun t => t.completed) else t1
  let t3 := match args.priority with
            | some p => if p = "" then t2 else t2.filter (fun t => t.priority = p)
            | none => t2
  if t3.isEmpty then (none, "No todos match the filter.")
  else (none, String.intercalate "\n" (t3.map renderTodoLine))

/-- The field updates applied by `update_todo` to the found record, with
`now` the sampled `new Date().toISOString()`. -/
def applyUpdate (args : UpdateArgs) (now : String) (t : Todo) : Todo :=
  { t with
    title := args.title.getD t.title
    description := args.description.getD t.description
    priority := args.priority.getD t.priority
    due_date := match args.due_date with
                | some d => some d
                | none => t.due_date
    updated_at := some now }

/-- The `update_todo` branch: find the first record with the given id; when
absent answer `No todo found with ID <id>` without writing; otherwise apply
the supplied fields, stamp `updated_at`, write, and answer with the (post-
update) title. -/
def update_todo (args : UpdateArgs) (now : String) (todos : List Todo) :
    Option (List Todo) × String :=
  match todos.find? (fun t => t.id = args.id) with
  | none => (none, "No todo found with ID " ++ args.id)
  | some t0 =>
    (some (updateFirst (fun t => t.id = args.id) (applyUpdate args now) todos),
     "Updated todo \"" ++ (applyUpdate args now t0).title ++ "\"")

/-- The `complete_todo` branch: find the first record with the given id;
when absent answer `No todo found with ID <id>` without writing; otherwise
set `completed`, stamp `completed_at` with `now`, write, and answer. -/
def complete_todo (i : String) (now : String) (todos : List Todo) :
    Option (List Todo) × String :=
  match todos.find? (fun t => t.id = i) with
  | none => (none, "No todo found with ID " ++ i)
  | some t0 =>
    (some (updateFirst (fun t => t.id = i)
            (fun t => { t with completed := true, completed_at := some now }) todos),
     "Marked \"" ++ t0.title ++ "\" as complete ✓")

/-- The `delete_todo` branch: find the first record with the given id; when
absent answer `No todo found with ID <id>` without writing; otherwise splice
it out, write, and answer with the deleted record's title. -/
def delete_todo (i : String) (todos : List Todo) :
    Option (List Todo) × String :=
  match todos.find? (fun t => t.id = i) with
  | none => (none, "No todo found with ID " ++ i)
  | some t0 =>
    (some (removeFirst (fun t => t.id = i) todos),
     "Deleted \"" ++ t0.title ++ "\"")

/-!
Claim-side restatements used for refinement comparisons (these follow the
words of the specification claims, not the source, and exist only to be
compared against the source-derived definitions above).
-/

/-- Claim wording of the `list_todos` status filter: `pending` excludes
completed, `completed` includes only completed, anything else includes
all. -/
def claimStatusPred (status : Option String) (t : Todo) : Bool :=
  if status = some "pending" then !t.completed
  else if status = some "completed" then t.completed
  else true

/-- Claim wording of the `list_todos` priority filter: applied whenever a
priority argument is given. -/
def claimPriorityPred (priority : Option String) (t : Todo) : Bool :=
  match priority with
  | some p => t.priority = p
  | none => true

/-- The `list_todos` text as the claim describes it: exactly the todos
satisfying both filters, in stored order, or the no-match message. -/
def claimListText (args : ListArgs) (todos : List Todo) : String :=
  let m := todos.filter
    (fun t => claimStatusPred args.status t && claimPriorityPred args.priority t)
  if m.isEmpty then "No todos match the filter."
  else String.intercalate "\n" (m.map renderTodoLine)

/-- The priority filter as the code actually applies it: an empty-string
priority argument is falsy in JS and is ignored rather than filtered on. -/
def codePriorityPred (priority : Option String) (t : Todo) : Bool :=
  match priority with
  | some p => if p = "" then true else t.priority = p
  | none => true

/-- The `list_todos` text with the truthiness-corrected priority filter. -/
def codeListText (args : ListArgs) (todos : List Todo) : String :=
  let m := todos.filter
    (fun t => claimStatusPred args.status t && codePriorityPred args.priority t)
  if m.isEmpty then "No todos match the filter."
  else String.intercalate "\n" (m.map renderTodoLine)

/-- A sample stored record used in concrete runs. -/
def sampleTodo : Todo :=
  { id := "1", title := "a", description := "", priority := "high",
    due_date := none, completed := false, created_at := "c" }

/-!
## Helper lemmas
-/


/-- Lookup through a cons cell of the association list. -/
theorem mapGet_cons (p : String × ServerId) (m : Registry) (k : String) :
    mapGet (p :: m) k = if p.1 = k then some p.2 else mapGet m k := by
  by_cases hp : p.1 = k <;> simp [mapGet, List.find?_cons, hp]

/-- Lookup distributes over append, preferring the left list. -/
theorem mapGet_append (m m' : Registry) (k : String) :
    mapGet (m ++ m') k =
      match mapGet m k with
      | some v => some v
      | none => mapGet m' k := by
  induction m with
  | nil => rfl
  | cons p ps ih =>
    by_cases hp : p.1 = k <;>
      simp [List.cons_append, mapGet_cons, hp, ih]

/-- Rewriting the entries keyed `n` does not change a lookup of `k ≠ n`. -/
theorem mapGet_map_subst_ne (m : Registry) (n k : String) (v : ServerId)
    (h : k ≠ n) :
    mapGet (m.map (fun p => if p.1 = n then (n, v) else p)) k = mapGet m k := by
  induction m with
  | nil => rfl
  | cons p ps ih =>
    by_cases hp : p.1 = n
    · have hnk : ¬ n = k := fun hh => h hh.symm
      have hpk : ¬ p.1 = k := by
        intro hh
        exact h (hh ▸ hp)
      simp [List.map_cons, if_pos hp, mapGet_cons, hnk, hpk, ih]
    · simp only [List.map_cons, if_neg hp, mapGet_cons, ih]

/-- Substituting `(k, v)` for the entries keyed `k` makes the lookup of `k`
yield `v`, provided some entry carries `k`. -/
theorem mapGet_map_subst_self (m : Registry) (k : String) (v : ServerId)
    (h : ∃ q ∈ m, q.1 = k) :
    mapGet (m.map (fun p => if p.1 = k then (k, v) else p)) k = some v := by
  induction m with
  | nil => simp at h
  | cons p ps ih =>
    by_cases hp : p.1 = k
    · simp [List.map_cons, if_pos hp, mapGet_cons]
    · obtain ⟨q, hq, hqk⟩ := h
      rcases List.mem_cons.mp hq with rfl | hq'
      · exact absurd hqk hp
      · simp only [List.map_cons, if_neg hp, mapGet_cons, hp, if_false]
        exact ih ⟨q, hq', hqk⟩

/-- A list none of whose entries carries `k` resolves `k` to nothing. -/
theorem mapGet_eq_none (m : Registry) (k : String)
    (h : ∀ q ∈ m, ¬ q.1 = k) : mapGet m k = none := by
  induction m with
  | nil => rfl
  | cons p ps ih =>
    rw [mapGet_cons, if_neg (h p (List.mem_cons_self p ps))]
    exact ih (fun q hq => h q (List.mem_cons_of_mem p hq))

/-- Reading back the key just written by `Map.set` yields the written
value. -/
theorem mapGet_mapSet_self (m : Registry) (k : String) (v : ServerId) :
    mapGet (mapSet m k v) k = some v := by
  unfold mapSet
  split
  · next h =>
    refine mapGet_map_subst_self m k v ?_
    simpa using h
  · next h =>
    have h' : ∀ q ∈ m, ¬ q.1 = k := by
      intro q hq hqk
      exact h (List.any_eq_true.mpr ⟨q, hq, by simp [hqk]⟩)
    rw [mapGet_append, mapGet_eq_none m k h', mapGet_cons]
    simp

/-- `Map.set` on a different key does not change a lookup. -/
theorem mapGet_mapSet_ne (m : Registry) (k n : String) (v : ServerId)
    (h : k ≠ n) : mapGet (mapSet m n v) k = mapGet m k := by
  unfold mapSet
  split
  · exact mapGet_map_subst_ne m n k v h
  · rw [mapGet_append, mapGet_cons]
    have hnk : ¬ n = k := fun hh => h hh.symm
    simp only [hnk, if_false]
    cases mapGet m k <;> rfl

/-- Folding `Map.set` over names not containing `k` leaves `k`'s route
alone. -/
theorem mapGet_foldl_not_mem (l : List String) (v : ServerId) (m : Registry)
    (k : String) (h : k ∉ l) :
    mapGet (l.foldl (fun m n => mapSet m n v) m) k = mapGet m k := by
  induction l generalizing m with
  | nil => rfl
  | cons x xs ih =>
    have hx : k ≠ x := fun hk => h (hk ▸ List.mem_cons_self x xs)
    have hxs : k ∉ xs := fun hk => h (List.mem_cons_of_mem x hk)
    simp only [List.foldl_cons]
    rw [ih (mapSet m x v) hxs, mapGet_mapSet_ne m k x v hx]

/-- Folding `Map.set` over names containing `k` routes `k` to `v`. -/
theorem mapGet_foldl_mem (l : List String) (v : ServerId) (m : Registry)
    (k : String) (h : k ∈ l) :
    mapGet (l.foldl (fun m n => mapSet m n v) m) k = some v := by
  induction l generalizing m with
  | nil => cases h
  | cons x xs ih =>
    simp only [List.foldl_cons]
    by_cases hxs : k ∈ xs
    · exact ih (mapSet m x v) hxs
    · have hx : k = x := by
        rcases List.mem_cons.mp h with h1 | h1
        · exact h1
        · exact absurd h1 hxs
      rw [mapGet_foldl_not_mem xs v (mapSet m x v) k hxs, hx,
        mapGet_mapSet_self]

/-- The `allTools.push` loop appends the discovered names in order. -/
theorem foldl_push_eq_append (l acc : List String) :
    l.foldl (fun acc n => acc ++ [n]) acc = acc ++ l := by
  induction l generalizing acc with
  | nil => simp
  | cons x xs ih => simp [List.foldl_cons, ih]

/-- A script whose head is a successful one-call `toolStep` round unfolds to
that round's two events followed by the rest of the run. -/
theorem runLoopAux_toolStep_cons (tail : List (Except String EngineResponse))
    (msgs : List Message) :
    runLoopAux reg0 inv0 (toolStep :: tail) msgs =
      Event.toolCall "t" "x" :: Event.toolResult "t" "r" ::
        runLoopAux reg0 inv0 tail
          (msgs ++ [Message.assistant [Block.toolUse "i" "t" "x"]]
                ++ [Message.toolResults [⟨"i", "r"⟩]]) := by
  rfl

/-- `n` successful `toolStep` rounds contribute `nRoundEvents n` and advance
the conversation by `nRoundMsgs`. -/
theorem runLoopAux_replicate_toolStep (n : Nat)
    (tail : List (Except String EngineResponse)) (msgs : List Message) :
    runLoopAux reg0 inv0 (List.replicate n toolStep ++ tail) msgs =
      nRoundEvents n ++ runLoopAux reg0 inv0 tail (nRoundMsgs n msgs) := by
  induction n generalizing msgs with
  | zero => simp [nRoundEvents, nRoundMsgs]
  | succ k ih =>
    rw [List.replicate_succ, List.cons_append, runLoopAux_toolStep_cons]
    rw [ih]
    simp [nRoundEvents, nRoundMsgs]

/-- `nRoundEvents` consists of `n` tool calls and results only. -/
theorem nRoundEvents_counts (n : Nat) :
    countToolCalls (nRoundEvents n) = n ∧ countErrors (nRoundEvents n) = 0 ∧
      countTurnComplete (nRoundEvents n) = 0 := by
  induction n with
  | zero => exact ⟨rfl, rfl, rfl⟩
  | succ k ih =>
    obtain ⟨h1, h2, h3⟩ := ih
    exact ⟨by simp [nRoundEvents, countToolCalls, h1],
      by simp [nRoundEvents, countErrors, h2],
      by simp [nRoundEvents, countTurnComplete, h3]⟩

/-- Event counters are additive over concatenation of streams. -/
theorem counts_append (a b : List Event) :
    countToolCalls (a ++ b) = countToolCalls a + countToolCalls b ∧
      countErrors (a ++ b) = countErrors a + countErrors b ∧
      countTurnComplete (a ++ b) = countTurnComplete a + countTurnComplete b := by
  induction a with
  | nil => simp [countToolCalls, countErrors, countTurnComplete]
  | cons e rest ih =>
    obtain ⟨h1, h2, h3⟩ := ih
    cases e <;>
      simp [countToolCalls, countErrors, countTurnComplete, h1, h2, h3] <;>
      omega

/-!
## Claim theorems
-/

/-- Claim C4: when the engine's first response is a plain answer — the code
branches on `stop_reason === 'tool_use'`, so a plain answer is any response
with a different stop reason — the turn emits exactly one `final_response`
event (the code's `response` event, carrying the first text block's text)
followed by one `turn_complete` event (the code's `done` event) carrying
the full updated conversation, and no `tool_call` or `tool_result`
events. -/
theorem plain_answer_turn (reg : Registry) (inv : Invoke)
    (resp : EngineResponse) (rest : List (Except String EngineResponse))
    (hist : List Message) (m : String)
    (h : resp.stop_reason ≠ "tool_use") :
    runTurn reg inv (Except.ok resp :: rest) hist m =
      [Event.finalResponse (firstText resp.content),
       Event.turnComplete (hist ++ [Message.user m]
         ++ [Message.assistant resp.content])] := by
  unfold runTurn runLoopAux
  rw [if_neg h]

/-- Witness for `plain_answer_turn` on a concrete plain-answer run. -/
theorem plain_answer_turn_witness :
    runTurn reg0 inv0 [Except.ok ⟨"end_turn", [Block.text "hi"]⟩] [] "q" =
      [Event.finalResponse "hi",
       Event.turnComplete [Message.user "q",
         Message.assistant [Block.text "hi"]]] := by
  have h := plain_answer_turn reg0 inv0 ⟨"end_turn", [Block.text "hi"]⟩ [] []
    "q" (by decide)
  simpa using h

/-- Claim C3: a round in which the engine requests the tools `[A, B]` in
that order (both resolving and invoking successfully) emits exactly
`tool_call A`, `tool_result A`, `tool_call B`, `tool_result B`, in that
order, before the loop proceeds with the rest of the turn; dispatch is
sequential in the engine's listed order. -/
theorem round_dispatch_order (reg : Registry) (inv : Invoke)
    (i1 n1 a1 i2 n2 a2 r1 r2 : String)
    (restScript : List (Except String EngineResponse)) (msgs : List Message)
    (h1 : callMCPTool reg inv n1 a1 = Except.ok r1)
    (h2 : callMCPTool reg inv n2 a2 = Except.ok r2) :
    runLoopAux reg inv
      (Except.ok ⟨"tool_use",
        [Block.toolUse i1 n1 a1, Block.toolUse i2 n2 a2]⟩ :: restScript)
      msgs =
      Event.toolCall n1 a1 :: Event.toolResult n1 r1 ::
      Event.toolCall n2 a2 :: Event.toolResult n2 r2 ::
        runLoopAux reg inv restScript
          (msgs ++ [Message.assistant
              [Block.toolUse i1 n1 a1, Block.toolUse i2 n2 a2]]
            ++ [Message.toolResults [⟨i1, r1⟩, ⟨i2, r2⟩]]) := by
  simp only [runLoopAux]
  simp [dispatchBlocks, h1, h2]

/-- Witness for `round_dispatch_order` on a concrete two-call round. -/
theorem round_dispatch_order_witness :
    runLoopAux reg0 inv0
      [Except.ok ⟨"tool_use",
        [Block.toolUse "1" "t" "a", Block.toolUse "2" "t" "b"]⟩] [] =
      [Event.toolCall "t" "a", Event.toolResult "t" "r",
       Event.toolCall "t" "b", Event.toolResult "t" "r"] := by
  have h := round_dispatch_order reg0 inv0 "1" "t" "a" "2" "t" "b" "r" "r"
    [] [] rfl rfl
  simpa using h

/-- Claim C5: a successful tool invocation hands the Agent Loop the text of
the first segment of the provider's result content
(`result.content[0]?.text ?? ''`); an empty content array or a first
segment without text yields the empty string. -/
theorem tool_result_first_segment_text :
    (∀ (t : String) (rest : List ContentSeg),
      extractFirstText (⟨some t⟩ :: rest) = t) ∧
    extractFirstText [] = "" ∧
    (∀ rest : List ContentSeg, extractFirstText (⟨none⟩ :: rest) = "") ∧
    (∀ (reg : Registry) (inv : Invoke) (name input : String) (srv : ServerId)
      (content : List ContentSeg),
      mapGet reg name = some srv → inv srv name input = Except.ok content →
      callMCPTool reg inv name input =
        Except.ok (extractFirstText content)) := by
  refine ⟨fun t rest => rfl, rfl, fun rest => rfl, ?_⟩
  intro reg inv name input srv content hroute hinv
  simp [callMCPTool, hroute, hinv]

/-- Witness for `tool_result_first_segment_text` on a concrete routed
call. -/
theorem tool_result_first_segment_text_witness :
    callMCPTool reg0 inv0 "t" "x" = Except.ok "r" := by
  have h := tool_result_first_segment_text.2.2.2 reg0 inv0 "t" "x"
    ServerId.storage [⟨some "r"⟩] (by decide) rfl
  simpa using h

/-- Claim C6: a turn-fatal error — the engine query itself throwing — makes
the `catch` block emit exactly one `error` event and end the stream: no
`turn_complete` is ever emitted for that turn, and the loop does not
continue past the failure.  The second conjunct runs whole turns of `n`
successful tool rounds followed by a failing engine query: the stream is
the rounds' events plus a single trailing `error`, with no
`turn_complete`. -/
theorem engine_error_fatal_turn :
    (∀ (reg : Registry) (inv : Invoke) (e : String)
      (rest : List (Except String EngineResponse)) (msgs : List Message),
      runLoopAux reg inv (Except.error e :: rest) msgs = [Event.error e]) ∧
    (∀ (n : Nat) (e : String),
      runTurn reg0 inv0 (List.replicate n toolStep ++ [Except.error e]) []
          "m" = nRoundEvents n ++ [Event.error e] ∧
      countErrors (nRoundEvents n ++ [Event.error e]) = 1 ∧
      countTurnComplete (nRoundEvents n ++ [Event.error e]) = 0) := by
  constructor
  · intro reg inv e rest msgs
    rfl
  · intro n e
    refine ⟨?_, ?_, ?_⟩
    · unfold runTurn
      rw [runLoopAux_replicate_toolStep]
      rfl
    · rw [(counts_append (nRoundEvents n) [Event.error e]).2.1,
        (nRoundEvents_counts n).2.1]
      rfl
    · rw [(counts_append (nRoundEvents n) [Event.error e]).2.2,
        (nRoundEvents_counts n).2.2]
      rfl

/-- Counterexample to claim C1: with only `create_todo` registered, a round
requesting the unregistered tool `ghost` produces a `tool_call` event and
then a top-level `error` event; no `tool_result` is synthesized, no further
engine query happens, and the turn terminates without `turn_complete` —
the `callMCPTool` throw escapes to the turn-level `catch`. -/
theorem unknown_tool_counterexample :
    runTurn [("create_todo", ServerId.storage)] inv0
        [Except.ok ⟨"tool_use", [Block.toolUse "i1" "ghost" "x"]⟩] [] "hi" =
      [Event.toolCall "ghost" "x",
       Event.error "No MCP server registered for tool: ghost"] ∧
    hasToolResult (runTurn [("create_todo", ServerId.storage)] inv0
        [Except.ok ⟨"tool_use", [Block.toolUse "i1" "ghost" "x"]⟩] [] "hi")
      = false ∧
    countTurnComplete (runTurn [("create_todo", ServerId.storage)] inv0
        [Except.ok ⟨"tool_use", [Block.toolUse "i1" "ghost" "x"]⟩] [] "hi")
      = 0 ∧
    countErrors (runTurn [("create_todo", ServerId.storage)] inv0
        [Except.ok ⟨"tool_use", [Block.toolUse "i1" "ghost" "x"]⟩] [] "hi")
      = 1 := by
  refine ⟨rfl, rfl, rfl, rfl⟩

/-- Amended claim C1: when resolving or invoking the first tool call of a
round fails — the name is unregistered, or the provider client throws — the
loop emits the `tool_call` event and then the exception propagates to the
turn-level `catch`: one top-level `error` event is emitted, no `tool_result`
is synthesized for the failed call, the remaining calls of the round are
skipped, and the engine is not queried again (the stream ends without
`turn_complete`). -/
theorem tool_failure_aborts_turn (reg : Registry) (inv : Invoke)
    (id name input : String) (rest : List Block)
    (restScript : List (Except String EngineResponse)) (msgs : List Message) :
    (mapGet reg name = none →
      runLoopAux reg inv
          (Except.ok ⟨"tool_use", Block.toolUse id name input :: rest⟩
            :: restScript) msgs =
        [Event.toolCall name input,
         Event.error ("No MCP server registered for tool: " ++ name)]) ∧
    (∀ (srv : ServerId) (e : String),
      mapGet reg name = some srv → inv srv name input = Except.error e →
      runLoopAux reg inv
          (Except.ok ⟨"tool_use", Block.toolUse id name input :: rest⟩
            :: restScript) msgs =
        [Event.toolCall name input, Event.error e]) := by
  constructor
  · intro h
    have hcall : callMCPTool reg inv name input =
        Except.error ("No MCP server registered for tool: " ++ name) := by
      simp [callMCPTool, h]
    simp only [runLoopAux]
    simp [dispatchBlocks, hcall]
  · intro srv e hroute hinv
    have hcall : callMCPTool reg inv name input = Except.error e := by
      simp [callMCPTool, hroute, hinv]
    simp only [runLoopAux]
    simp [dispatchBlocks, hcall]

/-- Witness for `tool_failure_aborts_turn`: the unregistered-name case at a
concrete input. -/
theorem tool_failure_aborts_turn_witness :
    runLoopAux [] inv0
        [Except.ok ⟨"tool_use", [Block.toolUse "i" "ghost" "x"]⟩] [] =
      [Event.toolCall "ghost" "x",
       Event.error "No MCP server registered for tool: ghost"] := by
  exact (tool_failure_aborts_turn [] inv0 "i" "ghost" "x" [] [] []).1 rfl

/-- Counterexample to claim C2: registering the same tool name from both
providers is not rejected — `initMCP` completes, the later (`ai`) provider
silently overwrites the `storage` route in `toolServerMap`, and the merged
`allTools` list sent to the engine carries the name twice. -/
theorem duplicate_name_counterexample :
    initRegistry ["dup"] ["dup"] = [("dup", ServerId.ai)] ∧
    mapGet (initRegistry ["dup"] ["dup"]) "dup" = some ServerId.ai ∧
    allToolNames ["dup"] ["dup"] = ["dup", "dup"] := by
  refine ⟨rfl, rfl, rfl⟩

/-- Amended claim C2: registration never fails; for any pair of discovered
name lists, a name registered by the `ai` provider routes to `ai` (the later
registration silently wins on conflicts), a name registered only by the
`storage` provider routes to `storage`, and the merged `allTools` list is
the concatenation of both providers' lists — duplicates included, with no
conflict detection. -/
theorem registry_later_provider_wins (storageNames aiNames : List String)
    (n : String) :
    (n ∈ aiNames →
      mapGet (initRegistry storageNames aiNames) n = some ServerId.ai) ∧
    (n ∈ storageNames → n ∉ aiNames →
      mapGet (initRegistry storageNames aiNames) n = some ServerId.storage) ∧
    allToolNames storageNames aiNames = storageNames ++ aiNames := by
  refine ⟨?_, ?_, ?_⟩
  · intro h
    exact mapGet_foldl_mem aiNames ServerId.ai _ n h
  · intro hs ha
    unfold initRegistry
    rw [mapGet_foldl_not_mem aiNames ServerId.ai _ n ha]
    exact mapGet_foldl_mem storageNames ServerId.storage [] n hs
  · unfold allToolNames
    rw [foldl_push_eq_append storageNames [], foldl_push_eq_append]
    simp

/-- Witness for `registry_later_provider_wins` on the real providers' tool
names with no collision. -/
theorem registry_later_provider_wins_witness :
    mapGet (initRegistry
        ["create_todo", "list_todos", "update_todo", "complete_todo",
         "delete_todo"]
        ["prioritize_todos", "summarize_todos", "suggest_next_todo",
         "categorize_todos"]) "prioritize_todos" = some ServerId.ai ∧
    mapGet (initRegistry
        ["create_todo", "list_todos", "update_todo", "complete_todo",
         "delete_todo"]
        ["prioritize_todos", "summarize_todos", "suggest_next_todo",
         "categorize_todos"]) "create_todo" = some ServerId.storage := by
  constructor
  · exact (registry_later_provider_wins _ _ "prioritize_todos").1 (by decide)
  · exact (registry_later_provider_wins _ _ "create_todo").2.1 (by decide)
      (by decide)

/-- Counterexample to claim C7 (negation): the Agent Loop enforces no
maximum round count.  There is no bound `cap` such that every turn that
surfaces no fatal error performs at most `cap` tool calls: for any proposed
`cap`, a script of `cap + 1` tool-requesting rounds followed by a plain
answer completes normally — zero `error` events, a `turn_complete` — after
`cap + 1` dispatched calls, and no `LoopBoundExceeded`-like condition
exists anywhere in the loop. -/
theorem no_loop_bound_counterexample :
    ¬ ∃ cap : Nat, ∀ script : List (Except String EngineResponse),
      countErrors (runTurn reg0 inv0 script [] "m") = 0 →
      countToolCalls (runTurn reg0 inv0 script [] "m") ≤ cap := by
  rintro ⟨cap, h⟩
  have hrun : runTurn reg0 inv0
      (List.replicate (cap + 1) toolStep ++ [finalStep]) [] "m" =
      nRoundEvents (cap + 1) ++
        runLoopAux reg0 inv0 [finalStep]
          (nRoundMsgs (cap + 1) [Message.user "m"]) := by
    unfold runTurn
    rw [runLoopAux_replicate_toolStep]
    rfl
  have hfin : runLoopAux reg0 inv0 [finalStep]
      (nRoundMsgs (cap + 1) [Message.user "m"]) =
      [Event.finalResponse "Added!",
       Event.turnComplete (nRoundMsgs (cap + 1) [Message.user "m"]
         ++ [Message.assistant [Block.text "Added!"]])] := rfl
  have herr : countErrors (runTurn reg0 inv0
      (List.replicate (cap + 1) toolStep ++ [finalStep]) [] "m") = 0 := by
    rw [hrun, hfin, (counts_append _ _).2.1, (nRoundEvents_counts _).2.1]
    rfl
  have hcount : countToolCalls (runTurn reg0 inv0
      (List.replicate (cap + 1) toolStep ++ [finalStep]) [] "m") = cap + 1 := by
    rw [hrun, hfin, (counts_append _ _).1, (nRoundEvents_counts _).1]
    rfl
  have := h (List.replicate (cap + 1) toolStep ++ [finalStep]) herr
  rw [hcount] at this
  omega

/-- Amended claim C7: the loop has no iteration cap and no
`LoopBoundExceeded` condition; it terminates exactly when the engine stops
requesting tools.  First conjunct: against an engine that requests a tool
on every round, `n` rounds produce exactly the `2n` round events — no
`turn_complete`, no `error`, for every `n` — so the loop runs unboundedly.
Second conjunct: as soon as the engine's response is not `tool_use`, the
loop emits `final_response` and `turn_complete` and stops. -/
theorem loop_unbounded_stops_on_plain_answer :
    (∀ (n : Nat) (msgs : List Message),
      runLoopAux reg0 inv0 (List.replicate n toolStep) msgs =
          nRoundEvents n ∧
        countToolCalls (nRoundEvents n) = n ∧
        countErrors (nRoundEvents n) = 0 ∧
        countTurnComplete (nRoundEvents n) = 0) ∧
    (∀ (reg : Registry) (inv : Invoke) (resp : EngineResponse)
      (rest : List (Except String EngineResponse)) (msgs : List Message),
      resp.stop_reason ≠ "tool_use" →
      runLoopAux reg inv (Except.ok resp :: rest) msgs =
        [Event.finalResponse (firstText resp.content),
         Event.turnComplete (msgs ++ [Message.assistant resp.content])]) := by
  constructor
  · intro n msgs
    refine ⟨?_, (nRoundEvents_counts n).1, (nRoundEvents_counts n).2.1,
      (nRoundEvents_counts n).2.2⟩
    have h := runLoopAux_replicate_toolStep n [] msgs
    simpa [runLoopAux] using h
  · intro reg inv resp rest msgs h
    unfold runLoopAux
    rw [if_neg h]

/-- Witness for `loop_unbounded_stops_on_plain_answer`: three tool-only
rounds produce six events and no terminal event; a non-`tool_use` response
stops the loop at once. -/
theorem loop_unbounded_stops_on_plain_answer_witness :
    (runLoopAux reg0 inv0 (List.replicate 3 toolStep) [] = nRoundEvents 3 ∧
      countToolCalls (nRoundEvents 3) = 3 ∧
      countErrors (nRoundEvents 3) = 0 ∧
      countTurnComplete (nRoundEvents 3) = 0) ∧
    runLoopAux reg0 inv0 [finalStep] [] =
      [Event.finalResponse "Added!",
       Event.turnComplete [Message.assistant [Block.text "Added!"]]] := by
  constructor
  · exact loop_unbounded_stops_on_plain_answer.1 3 []
  · have h := loop_unbounded_stops_on_plain_answer.2 reg0 inv0
      ⟨"end_turn", [Block.text "Added!"]⟩ [] [] (by decide)
    simpa using h

/-- Counterexample to claim C8: a turn over an empty prior conversation
(`history = []`, so "the prior conversation's length" is `0`) with one
single-call round and then a final answer ends in a `turn_complete` whose
conversation has length `4`, not `0 + 3`: the loop appends the new user
message, the assistant tool-use turn, the tool-results message, and the
final assistant answer. -/
theorem turn_complete_length_counterexample :
    (turnCompleteConv (runTurn reg0 inv0 [toolStep, finalStep] []
        "add buy milk")).map List.length = some 4 ∧
    (turnCompleteConv (runTurn reg0 inv0 [toolStep, finalStep] []
        "add buy milk")).map List.length ≠
      some (List.length ([] : List Message) + 3) := by
  refine ⟨rfl, by decide⟩

/-- Amended claim C8: a turn of exactly one single-call round followed by a
final answer emits `tool_call`, `tool_result` (the provider's result text),
`final_response` (the answer text), then `turn_complete`, and the
conversation carried by `turn_complete` has length equal to the submitted
prior conversation's length plus 4 (new user message, assistant tool-use
turn, tool-results message, final assistant answer). -/
theorem single_round_turn_events (reg : Registry) (inv : Invoke)
    (hist : List Message) (m id name input answer r : String)
    (h : callMCPTool reg inv name input = Except.ok r) :
    runTurn reg inv
        [Except.ok ⟨"tool_use", [Block.toolUse id name input]⟩,
         Except.ok ⟨"end_turn", [Block.text answer]⟩] hist m =
      [Event.toolCall name input, Event.toolResult name r,
       Event.finalResponse answer,
       Event.turnComplete (hist ++ [Message.user m,
         Message.assistant [Block.toolUse id name input],
         Message.toolResults [⟨id, r⟩],
         Message.assistant [Block.text answer]])] ∧
    (hist ++ [Message.user m,
       Message.assistant [Block.toolUse id name input],
       Message.toolResults [⟨id, r⟩],
       Message.assistant [Block.text answer]]).length = hist.length + 4 := by
  constructor
  · unfold runTurn
    simp only [runLoopAux]
    simp [dispatchBlocks, h, firstText]
  · simp

/-- Witness for `single_round_turn_events` on the concrete end-to-end
scenario. -/
theorem single_round_turn_events_witness :
    runTurn reg0 inv0
        [Except.ok ⟨"tool_use", [Block.toolUse "i" "t" "x"]⟩,
         Except.ok ⟨"end_turn", [Block.text "Added!"]⟩] [] "add buy milk" =
      [Event.toolCall "t" "x", Event.toolResult "t" "r",
       Event.finalResponse "Added!",
       Event.turnComplete [Message.user "add buy milk",
         Message.assistant [Block.toolUse "i" "t" "x"],
         Message.toolResults [⟨"i", "r"⟩],
         Message.assistant [Block.text "Added!"]]] := by
  have h := (single_round_turn_events reg0 inv0 [] "add buy milk" "i" "t"
    "x" "Added!" "r" rfl).1
  simpa using h

/-- Claim C9: `update_todo`, `complete_todo` and `delete_todo` invoked with
an id no stored todo carries all answer `No todo found with ID <id>` and
perform no write (the handlers return before `writeTodos`, so the stored
list is untouched). -/
theorem missing_id_reported_without_write (todos : List Todo)
    (args : UpdateArgs) (now : String)
    (h : ∀ t ∈ todos, ¬ t.id = args.id) :
    update_todo args now todos =
        (none, "No todo found with ID " ++ args.id) ∧
    complete_todo args.id now todos =
        (none, "No todo found with ID " ++ args.id) ∧
    delete_todo args.id todos =
        (none, "No todo found with ID " ++ args.id) := by
  have hf : todos.find? (fun t => t.id = args.id) = none := by
    rw [List.find?_eq_none]
    intro t ht
    simpa using h t ht
  refine ⟨?_, ?_, ?_⟩ <;>
    simp [update_todo, complete_todo, delete_todo, hf]

/-- Witness for `missing_id_reported_without_write` on a concrete store. -/
theorem missing_id_reported_without_write_witness :
    update_todo ⟨"zzz", none, none, none, none⟩ "now" [sampleTodo] =
        (none, "No todo found with ID " ++ "zzz") ∧
    complete_todo "zzz" "now" [sampleTodo] =
        (none, "No todo found with ID " ++ "zzz") ∧
    delete_todo "zzz" [sampleTodo] =
        (none, "No todo found with ID " ++ "zzz") := by
  exact missing_id_reported_without_write [sampleTodo]
    ⟨"zzz", none, none, none, none⟩ "now" (by decide)

/-- The two sequential status `if`-filters of `list_todos` equal one filter
by the claim's status predicate. -/
theorem statusFilter_eq (st : Option String) (todos : List Todo) :
    (if st = some "completed" then
      (if st = some "pending" then todos.filter (fun t => !t.completed)
       else todos).filter (fun t => t.completed)
     else
      (if st = some "pending" then todos.filter (fun t => !t.completed)
       else todos)) = todos.filter (fun t => claimStatusPred st t) := by
  by_cases h1 : st = some "pending"
  · simp [h1, claimStatusPred]
  · by_cases h2 : st = some "completed"
    · simp [h1, h2, claimStatusPred]
    · simp [h1, h2, claimStatusPred]

/-- The truthiness-guarded priority filter of `list_todos` equals one
filter by the code's priority predicate. -/
theorem priorityFilter_eq (pr : Option String) (l : List Todo) :
    (match pr with
     | some p => if p = "" then l else l.filter (fun t => t.priority = p)
     | none => l) = l.filter (fun t => codePriorityPred pr t) := by
  cases pr with
  | none => simp [codePriorityPred]
  | some p =>
    by_cases hp : p = "" <;> simp [hp, codePriorityPred]

/-- Counterexample to claim C10: with the priority argument given as the
empty string, the code's JS-truthiness guard `if (args.priority)` skips the
priority filter, so a stored high-priority todo is listed even though no
todo's priority equals the given `""` — the claim's reading ("the priority
filter when given") would produce `No todos match the filter.`. -/
theorem empty_priority_counterexample :
    (list_todos ⟨none, some ""⟩ [sampleTodo]).2 = "[1] ○ a | high priority" ∧
    claimListText ⟨none, some ""⟩ [sampleTodo] = "No todos match the filter." ∧
    (list_todos ⟨none, some ""⟩ [sampleTodo]).2 ≠
      claimListText ⟨none, some ""⟩ [sampleTodo] := by
  refine ⟨rfl, rfl, by decide⟩

/-- Amended claim C10: `list_todos` never writes, and its text enumerates —
in stored order, one rendered line per todo — exactly the todos satisfying
both the status filter (`pending` excludes completed, `completed` includes
only completed, anything else includes all) and the priority filter when
given as a non-empty string (an empty-string priority argument is falsy in
JS and is ignored); when nothing matches it answers
`No todos match the filter.`. -/
theorem list_todos_agrees (args : ListArgs) (todos : List Todo) :
    (list_todos args todos).1 = none ∧
    (list_todos args todos).2 = codeListText args todos := by
  obtain ⟨st, pr⟩ := args
  constructor
  · simp only [list_todos]
    simp [apply_ite Prod.fst]
  · simp only [list_todos, codeListText]
    rw [priorityFilter_eq, statusFilter_eq, List.filter_filter]
    have hc : todos.filter
        (fun a => codePriorityPred pr a && claimStatusPred st a) =
        todos.filter (fun t => claimStatusPred st t && codePriorityPred pr t) :=
      List.filter_congr (fun a _ => Bool.and_comm _ _)
    rw [hc]
    split <;> rfl
